import Mathlib

/-!
Shallow embedding of the napalm-arubaOS driver
(`src/napalm_aruba505/arubaf.py`, `src/arubaos/helpers.py`).

Python strings are modelled as Lean `String`s, with the string methods the
source uses (`strip`, `splitlines`, `split(sep)`, `split()`, `in`,
`replace`, `isnumeric`, `lower`, `int(...)`) re-implemented over `List Char`
below.  The re-implementations follow CPython semantics for the inputs the
driver sees; the only deliberate narrowings are that `isnumeric`/`lower`
are modelled at their ASCII meaning, and Python whitespace is modelled as
the six ASCII whitespace characters.

Python code that can raise (`list[i]` out of range, tuple unpacking of the
wrong arity) is modelled with `Option`: `none` is an uncaught exception.
Python integers are unbounded, so numbers are `Nat`; the `float(...)`
conversion applied to the uptime sum is modelled as the exact integer value
(the sum is always a non-negative integer).
-/

namespace ArubaF

/-- The six ASCII whitespace characters Python's `str.strip` / no-argument
`str.split` treat as whitespace. -/
def isPySpace (c : Char) : Bool :=
  c == ' ' || c == '\t' || c == '\n' || c == '\r' || c == '\x0b' || c == '\x0c'

/-- `str.strip()` on the underlying character list. -/
def pyStripL (cs : List Char) : List Char :=
  ((cs.dropWhile isPySpace).reverse.dropWhile isPySpace).reverse

/-- Python `str.strip()`. -/
def pyStrip (s : String) : String := ⟨pyStripL s.data⟩

/-- Helper for `str.splitlines()`: `acc` holds the current line reversed. -/
def splitlinesAux : List Char → List Char → List String
  | [], acc => if acc.isEmpty then [] else [⟨acc.reverse⟩]
  | '\r' :: '\n' :: rest, acc => (⟨acc.reverse⟩ : String) :: splitlinesAux rest []
  | '\r' :: rest, acc => (⟨acc.reverse⟩ : String) :: splitlinesAux rest []
  | '\n' :: rest, acc => (⟨acc.reverse⟩ : String) :: splitlinesAux rest []
  | c :: rest, acc => splitlinesAux rest (c :: acc)

/-- Python `str.splitlines()` (line breaks `\n`, `\r`, `\r\n`; no trailing
empty line for a trailing break; `"".splitlines() == []`). -/
def pySplitlines (s : String) : List String := splitlinesAux s.data []

/-- Helper for `str.split(sep)` with a one-character separator. -/
def pySplitCharAux (sep : Char) : List Char → List Char → List String
  | [], acc => [⟨acc.reverse⟩]
  | c :: rest, acc =>
      if c == sep then (⟨acc.reverse⟩ : String) :: pySplitCharAux sep rest []
      else pySplitCharAux sep rest (c :: acc)

/-- Python `str.split(sep)` for a one-character separator: keeps empty
pieces, `"".split(sep) == [""]`. -/
def pySplitChar (sep : Char) (s : String) : List String := pySplitCharAux sep s.data []

/-- Helper for no-argument `str.split()`. -/
def pySplitWSAux : List Char → List Char → List String
  | [], acc => if acc.isEmpty then [] else [⟨acc.reverse⟩]
  | c :: rest, acc =>
      if isPySpace c then
        if acc.isEmpty then pySplitWSAux rest []
        else (⟨acc.reverse⟩ : String) :: pySplitWSAux rest []
      else pySplitWSAux rest (c :: acc)

/-- Python no-argument `str.split()`: split on whitespace runs, dropping
empty pieces. -/
def pySplitWS (s : String) : List String := pySplitWSAux s.data []

/-- Is the first list a prefix of the second? -/
def listIsPrefixOf : List Char → List Char → Bool
  | [], _ => true
  | _ :: _, [] => false
  | a :: as, b :: bs => a == b && listIsPrefixOf as bs

/-- Does `pat` occur as a contiguous sublist of `s`? -/
def listContains (pat : List Char) : List Char → Bool
  | [] => pat.isEmpty
  | c :: rest => listIsPrefixOf pat (c :: rest) || listContains pat rest

/-- Python `pat in s` for strings (substring containment). -/
def pyIn (pat s : String) : Bool := listContains pat.data s.data

/-- Helper for `listReplace`: structural recursion on a fuel bound (the
input length) so the kernel can evaluate it.  Assumes `pat` is non-empty:
a match consumes the head plus `pat.length - 1` further characters. -/
def listReplaceAux (pat rep : List Char) : Nat → List Char → List Char
  | _, [] => []
  | 0, s => s
  | fuel + 1, c :: rest =>
      if listIsPrefixOf pat (c :: rest) then
        rep ++ listReplaceAux pat rep fuel (List.drop (pat.length - 1) rest)
      else c :: listReplaceAux pat rep fuel rest

/-- Replace every occurrence of `pat` (left to right, non-overlapping) by
`rep`.  Python's `str.replace` with an empty pattern inserts `rep` between
all characters; the source only uses non-empty patterns, and for an empty
pattern we return the input unchanged. -/
def listReplace (pat rep s : List Char) : List Char :=
  if pat.isEmpty then s else listReplaceAux pat rep s.length s

/-- Python `s.replace(pat, rep)`. -/
def pyReplace (s pat rep : String) : String := ⟨listReplace pat.data rep.data s.data⟩

/-- Python `str.isnumeric()` at its ASCII meaning: non-empty and all
decimal digits. -/
def pyIsNumeric (s : String) : Bool := !s.data.isEmpty && s.data.all Char.isDigit

/-- Python `int(s)` for a decimal digit string. -/
def pyInt (s : String) : Nat :=
  s.data.foldl (fun n c => n * 10 + (c.toNat - '0'.toNat)) 0

/-- Python `str.lower()` at its ASCII meaning. -/
def pyLower (s : String) : String := ⟨s.data.map Char.toLower⟩

/-- `data.strip().splitlines()` — the line list both sanitizers scan. -/
def linesOf (s : String) : List String := pySplitlines (pyStrip s)

/-! The constants of `arubaf.py` lines 14-19. -/

def SECONDS : Nat := 1

def MINUTE_SECONDS : Nat := 60

def HOUR_SECONDS : Nat := 3600

def DAY_SECONDS : Nat := 24 * HOUR_SECONDS

def WEEK_SECONDS : Nat := 7 * DAY_SECONDS

def YEAR_SECONDS : Nat := 365 * DAY_SECONDS

/-- The uptime arithmetic of `show_version_sanitizer` (the expression
`float(sum([(years * YEAR_SECONDS), ..., (seconds * SECONDS)]))`), the
spec's `toSeconds`.  The sum is an exact non-negative integer. -/
def toSeconds (years weeks days hours minutes seconds : Nat) : Nat :=
  years * YEAR_SECONDS + weeks * WEEK_SECONDS + days * DAY_SECONDS +
    hours * HOUR_SECONDS + minutes * MINUTE_SECONDS + seconds * SECONDS

/-- Result triple of `show_summary_sanitizer`:
`(hostname_, fqdn, serial_number)`. -/
structure SummaryState where
  hostname : String
  fqdn : String
  serial_number : String
deriving DecidableEq

/-- The `"Name"` rule of `show_summary_sanitizer` (lines 151-152): the new
value of `hostname_`.  `none` models an uncaught `IndexError` from
`l.split(':')[1]`. -/
def nameRule (st : SummaryState) (l : String) : Option String :=
  if pyIn "Name" l ∧ st.hostname = ""
  then ((pySplitChar ':' l).get? 1).map pyLower
  else some st.hostname

/-- The `"DNSDomain"` rule of `show_summary_sanitizer` (lines 153-154): the
new value of `fqdn`, given the hostname `h` already updated by the `"Name"`
rule on the same line. -/
def dnsRule (st : SummaryState) (h l : String) : Option String :=
  if pyIn "DNSDomain" l ∧ h ≠ ""
  then ((pySplitChar ':' l).get? 1).map (fun d => h ++ "." ++ d)
  else some st.fqdn

/-- The `"Serial Number"` rule of `show_summary_sanitizer` (lines 155-156):
the new value of `serial_number`. -/
def serialRule (st : SummaryState) (l : String) : Option String :=
  if pyIn "Serial Number" l
  then (pySplitChar ':' l).get? 1
  else some st.serial_number

/-- One iteration of the `for l in data_l` loop of `show_summary_sanitizer`
(lines 150-156).  The three `if`s run in order on the same line and the
hostname update is visible to the `DNSDomain` rule on the same line, as in
the source. -/
def summaryStep (st : SummaryState) (l : String) : Option SummaryState :=
  (nameRule st l).bind fun h =>
    (dnsRule st h l).bind fun f =>
      (serialRule st l).map fun sn => ⟨h, f, sn⟩

/-- `show_summary_sanitizer` (lines 138-157).  `none` models an uncaught
exception. -/
def show_summary_sanitizer (data : String) : Option SummaryState :=
  if data = "" then some ⟨"", "", ""⟩
  else (linesOf data).foldlM summaryStep ⟨"", "", ""⟩

/-- A Python value that is either a string or a number: the
`uptime` local of `show_version_sanitizer` is initialized to `""` and only
replaced by a float when an uptime line parses. -/
inductive PyVal where
  | str : String → PyVal
  | num : Nat → PyVal
deriving DecidableEq

/-- The mutable locals of `show_version_sanitizer`'s loop (lines 166-171):
the six time components, `model`, `os_version` and `uptime`. -/
structure VersionState where
  years : Nat
  weeks : Nat
  days : Nat
  hours : Nat
  minutes : Nat
  seconds : Nat
  model : String
  os_version : String
  uptime : PyVal
deriving DecidableEq

/-- Initial state of `show_version_sanitizer`'s loop. -/
def vsInit : VersionState := ⟨0, 0, 0, 0, 0, 0, "", "", .str ""⟩

/-- `[int(i) for i in l.replace("AP uptime is", "").split() if i.isnumeric()]`. -/
def numericRecords (l : String) : List Nat :=
  ((pySplitWS (pyReplace l "AP uptime is" "")).filter pyIsNumeric).map pyInt

/-- The `"MODEL"` rule of `show_version_sanitizer` (lines 176-177).
`none` models the `ValueError` from `model, os_version = l.split(',')`
when the split does not have exactly two parts. -/
def modelRule (st : VersionState) (l : String) : Option VersionState :=
  if pyIn "MODEL" l then
    match pySplitChar ',' l with
    | [m, o] => some {st with model := m, os_version := o}
    | _ => none
  else some st

/-- The five-token uptime assignment (lines 182-185): guarded by
`len(uptimes_records) >= 5` but unpacking exactly five names, so six or
more records raise a `ValueError` (modelled `none`).  The sum uses the
updated components. -/
def uptimeRule5 (st : VersionState) (l : String) : Option VersionState :=
  if numericRecords l ≠ [] ∧ 5 ≤ (numericRecords l).length then
    match numericRecords l with
    | [w, d, h, m, s] =>
      some { st with
        weeks := w, days := d, hours := h, minutes := m, seconds := s,
        uptime := .num (toSeconds st.years w d h m s) }
    | _ => none
  else some st

/-- The four-token uptime assignment (lines 186-189): `seconds` keeps its
current value (0 unless a previous line set it). -/
def uptimeRule4 (st : VersionState) (l : String) : Option VersionState :=
  if numericRecords l ≠ [] ∧ (numericRecords l).length = 4 then
    match numericRecords l with
    | [w, d, h, m] =>
      some { st with
        weeks := w, days := d, hours := h, minutes := m,
        uptime := .num (toSeconds st.years w d h m st.seconds) }
    | _ => none
  else some st

/-- One iteration of the `for l in data_l` loop of `show_version_sanitizer`
(lines 175-189): the `"MODEL"` rule, then, on an `"AP uptime is"` line, the
two guarded uptime assignments in order. -/
def versionStep (st : VersionState) (l : String) : Option VersionState :=
  (modelRule st l).bind fun st1 =>
    if pyIn "AP uptime is" l then
      (uptimeRule5 st1 l).bind fun st2 => uptimeRule4 st2 l
    else some st1

/-- `show_version_sanitizer` (lines 160-191): returns
`(vendor, model, os_version, uptime)`; the vendor is the constant
`"Hewlett Packard"`. -/
def show_version_sanitizer (data : String) : Option (String × String × String × PyVal) :=
  if data = "" then some ("Hewlett Packard", "", "", .str "")
  else ((linesOf data).foldlM versionStep vsInit).map
    (fun st => ("Hewlett Packard", st.model, st.os_version, st.uptime))

/-- The blank-line removal `get_facts` (and `get_config`) applies to the raw
command output before feeding a sanitizer: split on `"\n"`, drop lines
blank after stripping, rejoin with a trailing `"\n"` per kept line. -/
def normalizeLines (s : String) : String :=
  ((pySplitChar '\n' s).filter (fun line => pyStrip line ≠ "")).foldl
    (fun acc line => acc ++ line ++ "\n") ""

/-- The record returned by `get_facts` (lines 220-228). -/
structure Facts where
  hostname : String
  fqdn : String
  vendor : String
  model : String
  serial_number : String
  os_version : String
  uptime : PyVal
deriving DecidableEq

/-- `get_facts` (lines 193-228), as a function of the two raw command
outputs (`show version`, `show summary`).  `none` models an uncaught
exception escaping from a sanitizer. -/
def get_facts (show_version_output show_summary_output : String) : Option Facts :=
  match show_version_sanitizer (normalizeLines show_version_output) with
  | none => none
  | some (vendor, model, os_version, uptime) =>
    match show_summary_sanitizer (normalizeLines show_summary_output) with
    | none => none
    | some st =>
      some ⟨st.hostname, st.fqdn, vendor, model, st.serial_number,
            pyStrip os_version, uptime⟩

/-- The `bad_responses` list of `get_ping` (lines 233-237). -/
def bad_responses : List String :=
  ["not known", "Name or service not known", "Error", "error",
   "fail", "Fail", "Destination Host Unreachable", "Destination",
   "Unreachable", "estination", "reachable", "connect"]

/-- The local `ping_dict` of `get_ping`. -/
structure PingDict where
  error : Option String
  success : Option String
deriving DecidableEq

/-- The classification part of `get_ping` (lines 244-251): the `if output:`
branch scans `bad_responses` and records an error marker on the first hit;
the `elif output and len(output) > 10:` branch would record success. -/
def ping_classify (output : String) : PingDict :=
  if output ≠ "" then
    if bad_responses.any (fun i => pyIn i output) then ⟨some "disconnected", none⟩
    else ⟨none, none⟩
  else if output ≠ "" ∧ 10 < output.length then ⟨none, some "connected"⟩
  else ⟨none, none⟩

/-- `get_ping` (lines 231-253) as a function of the device's output for the
ping command: it builds `ping_dict` but returns the raw `output`
(`return ping_dict` is commented out in the source). -/
def get_ping (output : String) : PingDict × String := (ping_classify output, output)

/-- The command `get_ping` sends. -/
def get_ping_command (hostname : String) : String := "ping " ++ hostname

/-- One entry of the list stored under `"eth0"` by the LLDP functions. -/
structure NeighborEntry where
  hostname : String
  port : String
deriving DecidableEq

/-- The `"System name:"` rule of the LLDP scan (lines 266-267): the new
value of `system_name`.  `none` models an uncaught `IndexError` from
`line.split()[2]`. -/
def lldpSysRule (st : String × String) (line : String) : Option String :=
  if pyIn "System name:" line then (pySplitWS line).get? 2 else some st.1

/-- The `"Interface description:"` rule of the LLDP scan (lines 268-269):
the new value of `interface_description` (all commas removed). -/
def lldpDescRule (st : String × String) (line : String) : Option String :=
  if pyIn "Interface description:" line then
    ((pySplitWS line).get? 2).map (fun t => pyReplace t "," "")
  else some st.2

/-- One iteration of the scan loop shared by `get_lldp_neighbors` and
`get_lldp_neighbors_detail` (lines 264-273): state is
`(system_name, interface_description)`, updated only on non-empty lines.
The `line.startswith("HP")` branch only assigns a local `vendor` that is
never read, so it has no observable effect and is not part of the state. -/
def lldpStep (st : String × String) (line : String) : Option (String × String) :=
  if line ≠ "" then
    (lldpSysRule st line).bind fun system_name =>
      (lldpDescRule st line).map fun interface_description =>
        (system_name, interface_description)
  else some st

/-- The fixed command `get_lldp_neighbors` sends (line 260). -/
def lldp_command : String := "show ap debug lldp neighbor interface eth0"

/-- `get_lldp_neighbors` (lines 256-276) as a function of the command
output: scans the stripped lines and returns a dict with the single key
`"eth0"` holding a one-element list. -/
def get_lldp_neighbors (result : String) : Option (String × List NeighborEntry) :=
  (((pySplitlines result).map pyStrip).foldlM lldpStep ("", "")).map
    (fun p => ("eth0", [⟨p.1, p.2⟩]))

/-- The fixed command `get_lldp_neighbors_detail` sends (line 284); its
`interface` parameter does not appear in the command. -/
def lldp_detail_command (interface : String) : String :=
  "show ap debug lldp neighbor interface eth0"

/-- `get_lldp_neighbors_detail` (lines 280-300): the body is a verbatim
copy of `get_lldp_neighbors`; the `interface` parameter is never used. -/
def get_lldp_neighbors_detail (interface : String) (result : String) :
    Option (String × List NeighborEntry) :=
  (((pySplitlines result).map pyStrip).foldlM lldpStep ("", "")).map
    (fun p => ("eth0", [⟨p.1, p.2⟩]))

/-- An interactive channel (`src/arubaos/helpers.py`): `reads n` is the
decoded text of the `n`-th bounded `recv(99999)` the channel serves, in
order.  Decoding is modelled as the identity on the already-decoded chunk;
`time.sleep` and `print` have no observable effect on the return value. -/
structure Channel where
  reads : Nat → String

/-- `send_single_cmd` (helpers.py lines 28-49), returning the decoded text
of the second bounded read together with the list of strings written to the
channel.  `none` models the two `return None` precondition branches
(`not cmd`, `not channel`); the banner (first read) is discarded. -/
def send_single_cmd (cmd : String) (channel : Option Channel) :
    Option (String × List String) :=
  if cmd = "" then none
  else
    match channel with
    | none => none
    | some ch =>
      let output := ch.reads 1
      some (output, [cmd ++ "\n"])

/-! ### Claim theorems -/

/-- C7: the uptime-to-seconds conversion is the linear sum of its
components under the fixed multipliers second=1, minute=60, hour=3600,
day=86400, week=604800, year=31536000, for all non-negative arguments; in
particular one week with all other components zero yields exactly 604800
seconds. -/
theorem toSeconds_linear_sum :
    (∀ years weeks days hours minutes seconds : Nat,
      toSeconds years weeks days hours minutes seconds =
        years * 31536000 + weeks * 604800 + days * 86400 +
          hours * 3600 + minutes * 60 + seconds * 1) ∧
    toSeconds 0 1 0 0 0 0 = 604800 := by
  refine ⟨fun y w d h m s => ?_, rfl⟩
  simp [toSeconds, YEAR_SECONDS, WEEK_SECONDS, DAY_SECONDS, HOUR_SECONDS,
    MINUTE_SECONDS, SECONDS]

/-- C10: for every device output and every value of the `interface`
argument, `get_lldp_neighbors_detail interface` returns exactly the same
result as `get_lldp_neighbors`, the command it issues is the same fixed
eth0 command, and any returned record is keyed `"eth0"`. -/
theorem lldp_detail_refines :
    ∀ (interface result : String),
      get_lldp_neighbors_detail interface result = get_lldp_neighbors result ∧
      lldp_detail_command interface = lldp_command ∧
      (get_lldp_neighbors_detail interface result).elim True (fun r => r.1 = "eth0") := by
  intro interface result
  refine ⟨rfl, rfl, ?_⟩
  unfold get_lldp_neighbors_detail
  cases (((pySplitlines result).map pyStrip).foldlM lldpStep ("", "")) <;> simp

/-- C4 counterexample: the output `"abcdefghijkl"` has length above 10 and
contains no failure substring, yet `get_ping` does not classify it as a
success (the success marker is never set). -/
theorem ping_claim_cex :
    (ping_classify "abcdefghijkl").success = none ∧
    10 < ("abcdefghijkl" : String).length ∧
    bad_responses.all (fun i => !(pyIn i "abcdefghijkl")) = true := by decide

/-- C4 amended: `get_ping` always returns the raw output as-is; when the
output contains a failure substring the internal classification dict
records an error marker (which is discarded), and the success branch is
unreachable, so no output is ever classified as a success. -/
theorem ping_amended :
    ∀ output : String,
      (get_ping output).2 = output ∧
      (get_ping output).1.success = none ∧
      ((get_ping output).1.error = some "disconnected" ↔
        output ≠ "" ∧ bad_responses.any (fun i => pyIn i output) = true) := by
  intro output
  refine ⟨rfl, ?_, ?_⟩ <;>
  · unfold get_ping ping_classify
    split_ifs <;> simp_all

/-- C8: `send_single_cmd` returns `none` exactly when the command string is
empty or the channel is absent; with a valid channel and a non-empty
command it returns the decoded text of the second bounded read, having
written the command followed by a line terminator. -/
theorem send_single_cmd_spec :
    ∀ (cmd : String) (channel : Option Channel),
      (send_single_cmd cmd channel = none ↔ cmd = "" ∨ channel = none) ∧
      (∀ ch : Channel, channel = some ch → cmd ≠ "" →
        send_single_cmd cmd channel = some (ch.reads 1, [cmd ++ "\n"])) := by
  intro cmd channel
  constructor
  · unfold send_single_cmd
    split_ifs with h
    · simp [h]
    · cases channel <;> simp [h]
  · rintro ch rfl hcmd
    simp [send_single_cmd, hcmd]

/-- A concrete channel serving a banner chunk and then one output chunk. -/
def demoChannel : Channel := ⟨fun n => if n = 0 then "banner" else "output text"⟩

/-- Witness for C8: on a concrete channel and command, `send_single_cmd`
returns the second read and writes the terminated command. -/
theorem send_single_cmd_spec_witness :
    send_single_cmd "show version" (some demoChannel) =
      some ("output text", ["show version\n"]) :=
  (send_single_cmd_spec "show version" (some demoChannel)).2 demoChannel rfl (by decide)

/-- C1 counterexample: the summary extractor is not total — on the text
`"Name"` (a matching line with no colon) it raises (modelled `none`)
instead of returning defaults. -/
theorem extractor_total_cex : show_summary_sanitizer "Name" = none := by decide

/-- C2 counterexample: an uptime line with six numeric tokens makes the
version scanner raise (modelled `none`) instead of leaving the uptime at 0,
and on a text with no uptime line the uptime is the empty string, not 0. -/
theorem uptime_claim_cex :
    show_version_sanitizer "AP uptime is 1 2 3 4 5 6" = none ∧
    show_version_sanitizer "no uptime here" =
      some ("Hewlett Packard", "", "", PyVal.str "") ∧
    PyVal.str "" ≠ PyVal.num 0 := by decide

/-- C3 counterexample: with two Serial Number lines the summary scan keeps
the value of the last matching line, not the first. -/
theorem first_match_wins_cex :
    show_summary_sanitizer "Serial Number:A\nSerial Number:B" =
      some ⟨"", "", "B"⟩ ∧ ("B" : String) ≠ "A" := by decide

/-- C6 counterexample: on the Name line `"Name:A:B"` the code takes the
second colon-split field (`"a"`), not the lowercased text after the first
colon (`"a:b"`). -/
theorem summary_colon_cex :
    Option.map SummaryState.hostname
      (show_summary_sanitizer "Name:A:B\nDNSDomain:example.com\nSerial Number:SN123") =
      some "a" ∧ ("a" : String) ≠ "a:b" := by decide

/-- C9 counterexample: the port token `"ab,cd,"` has every comma removed
(yielding `"abcd"`), not only its trailing comma (which would yield
`"ab,cd"`). -/
theorem lldp_comma_cex :
    get_lldp_neighbors "Interface description: ab,cd, x" =
      some ("eth0", [⟨"", "abcd"⟩]) ∧ ("abcd" : String) ≠ "ab,cd" := by decide

/-- C5: in the version scan, a line containing `"MODEL"` with exactly one
comma is split into two parts assigned in order to `model` and
`os_version` (so `"MODEL,IAP-505"` yields model `"MODEL"` and os version
`"IAP-505"`), and with zero or several commas the scan raises (modelled
`none`) instead of returning a value. -/
theorem model_line_split :
    (∀ (st : VersionState) (l : String), pyIn "MODEL" l = true →
      (∀ m o, pySplitChar ',' l = [m, o] → pyIn "AP uptime is" l = false →
        versionStep st l = some {st with model := m, os_version := o}) ∧
      ((pySplitChar ',' l).length ≠ 2 → versionStep st l = none)) ∧
    show_version_sanitizer "MODEL,IAP-505" =
      some ("Hewlett Packard", "MODEL", "IAP-505", PyVal.str "") ∧
    show_version_sanitizer "MODEL,IAP-505,8.6.0.1" = none := by
  refine ⟨?_, by decide, by decide⟩
  intro st l hM
  constructor
  · intro m o hsplit hU
    simp [versionStep, modelRule, hM, hsplit, hU]
  · intro hlen
    rcases hsp : pySplitChar ',' l with _ | ⟨a, _ | ⟨b, _ | ⟨c, rest⟩⟩⟩
    · simp [versionStep, modelRule, hM, hsp]
    · simp [versionStep, modelRule, hM, hsp]
    · rw [hsp] at hlen; simp at hlen
    · simp [versionStep, modelRule, hM, hsp]

/-- Witness for C5 at a concrete state and line. -/
theorem model_line_split_witness :
    versionStep vsInit "MODEL,X" = some {vsInit with model := "MODEL", os_version := "X"} :=
  (model_line_split.1 vsInit "MODEL,X" (by decide)).1 "MODEL" "X" (by decide) (by decide)

/-- The MODEL rule never touches the uptime field. -/
theorem modelRule_uptime_eq (st st1 : VersionState) (l : String)
    (h : modelRule st l = some st1) : st1.uptime = st.uptime := by
  unfold modelRule at h
  split at h
  · split at h
    · injection h with h2; rw [← h2]
    · exact absurd h (by simp)
  · injection h with h2; rw [← h2]

/-- When the numeric-token count is not 5, a successful five-token rule is
the identity. -/
theorem uptimeRule5_skip (st st2 : VersionState) (l : String)
    (hlen : (numericRecords l).length ≠ 5)
    (h : uptimeRule5 st l = some st2) : st2 = st := by
  unfold uptimeRule5 at h
  split at h
  · split at h
    · rename_i hrec
      exact absurd (by simp [hrec]) hlen
    · exact absurd h (by simp)
  · injection h with h2; rw [← h2]

/-- When the numeric-token count is not 4, a successful four-token rule is
the identity. -/
theorem uptimeRule4_skip (st st2 : VersionState) (l : String)
    (hlen : (numericRecords l).length ≠ 4)
    (h : uptimeRule4 st l = some st2) : st2 = st := by
  unfold uptimeRule4 at h
  split at h
  · rename_i hc
    exact absurd hc.2 hlen
  · injection h with h2; rw [← h2]

/-- A line that cannot set the uptime — either it lacks the phrase
`"AP uptime is"` or its numeric-token count is neither 4 nor 5 — leaves the
`uptime` field unchanged whenever the step succeeds. -/
theorem versionStep_uptime_eq (st st' : VersionState) (l : String)
    (hl : (!(pyIn "AP uptime is" l) ||
      ((numericRecords l).length != 4 && (numericRecords l).length != 5)) = true)
    (hstep : versionStep st l = some st') : st'.uptime = st.uptime := by
  unfold versionStep at hstep
  rcases hm : modelRule st l with _ | st1 <;> rw [hm] at hstep
  · exact absurd hstep (by simp)
  · simp only [Option.some_bind] at hstep
    rw [← modelRule_uptime_eq st st1 l hm]
    by_cases hU : pyIn "AP uptime is" l = true
    · rw [hU] at hl
      simp only [Bool.not_true, Bool.false_or, Bool.and_eq_true, bne_iff_ne,
        ne_eq] at hl
      rw [if_pos hU] at hstep
      rcases h5 : uptimeRule5 st1 l with _ | st2 <;> rw [h5] at hstep
      · exact absurd hstep (by simp)
      · simp only [Option.some_bind] at hstep
        rw [uptimeRule4_skip st2 st' l hl.1 hstep, uptimeRule5_skip st1 st2 l hl.2 h5]
    · rw [if_neg hU] at hstep
      injection hstep with h2; rw [← h2]

/-- Whenever the fold of `versionStep` over lines none of which can set the
uptime succeeds, the `uptime` field is unchanged. -/
theorem version_fold_uptime_eq (ls : List String) (st st' : VersionState)
    (hok : ls.all (fun l => !(pyIn "AP uptime is" l) ||
      ((numericRecords l).length != 4 && (numericRecords l).length != 5)) = true)
    (hfold : ls.foldlM versionStep st = some st') : st'.uptime = st.uptime := by
  induction ls generalizing st with
  | nil =>
    simp only [List.foldlM_nil] at hfold
    injection hfold with h; rw [← h]
  | cons l ls ih =>
    simp only [List.all_cons, Bool.and_eq_true] at hok
    simp only [List.foldlM_cons] at hfold
    rcases hstep : versionStep st l with _ | st1 <;> rw [hstep] at hfold
    · exact absurd hfold (by simp)
    · simp only [Option.bind_eq_bind, Option.some_bind] at hfold
      rw [ih st1 hok.2 hfold, versionStep_uptime_eq st st1 l hok.1 hstep]

/-- C2 amended: the version scanner's uptime starts as the empty string
(surfaced raw by `get_facts`), and stays so for every text whose uptime
lines have a numeric-token count other than 4 and 5; an uptime line with 5
numeric tokens is read as (weeks, days, hours, minutes, seconds), one with
4 tokens as (weeks, days, hours, minutes) keeping the current seconds value
(0 unless a previous line set it); and a line with 6 or more numeric tokens
makes the scan raise (modelled `none`). -/
theorem uptime_amended :
    (∀ data vendor model osv u,
      (linesOf data).all (fun l => !(pyIn "AP uptime is" l) ||
        ((numericRecords l).length != 4 && (numericRecords l).length != 5)) = true →
      show_version_sanitizer data = some (vendor, model, osv, u) → u = PyVal.str "") ∧
    (∀ (st : VersionState) (l : String) (w d h m s : Nat),
      pyIn "MODEL" l = false → pyIn "AP uptime is" l = true →
      numericRecords l = [w, d, h, m, s] →
      versionStep st l = some { st with
        weeks := w, days := d, hours := h, minutes := m, seconds := s,
        uptime := PyVal.num (toSeconds st.years w d h m s) }) ∧
    (∀ (st : VersionState) (l : String) (w d h m : Nat),
      pyIn "MODEL" l = false → pyIn "AP uptime is" l = true →
      numericRecords l = [w, d, h, m] →
      versionStep st l = some { st with
        weeks := w, days := d, hours := h, minutes := m,
        uptime := PyVal.num (toSeconds st.years w d h m st.seconds) }) ∧
    (∀ (st : VersionState) (l : String),
      pyIn "MODEL" l = false → pyIn "AP uptime is" l = true →
      6 ≤ (numericRecords l).length → versionStep st l = none) := by
  refine ⟨?_, ?_, ?_, ?_⟩
  · intro data vendor model osv u hall hres
    unfold show_version_sanitizer at hres
    by_cases hd : data = ""
    · rw [if_pos hd] at hres
      simp only [Option.some.injEq, Prod.mk.injEq] at hres
      exact hres.2.2.2.symm
    · rw [if_neg hd] at hres
      rcases hfold : (linesOf data).foldlM versionStep vsInit with _ | st <;>
        rw [hfold] at hres
      · exact absurd hres (by simp)
      · simp only [Option.map_some', Option.some.injEq, Prod.mk.injEq] at hres
        rw [← hres.2.2.2, version_fold_uptime_eq _ _ _ hall hfold]
        rfl
  · intro st l w d h m s hM hU hrec
    simp [versionStep, modelRule, uptimeRule5, uptimeRule4, hM, hU, hrec]
  · intro st l w d h m hM hU hrec
    simp [versionStep, modelRule, uptimeRule5, uptimeRule4, hM, hU, hrec]
  · intro st l hM hU hlen
    obtain ⟨a, b, c, d, e, f, rest, hrec⟩ :
        ∃ a b c d e f rest, numericRecords l = a :: b :: c :: d :: e :: f :: rest := by
      rcases hx : numericRecords l with _ | ⟨a, _ | ⟨b, _ | ⟨c, _ | ⟨d, _ | ⟨e, _ | ⟨f, rest⟩⟩⟩⟩⟩⟩ <;>
        rw [hx] at hlen
      · exact absurd hlen (by simp)
      · exact absurd hlen (by simp)
      · exact absurd hlen (by simp)
      · exact absurd hlen (by simp)
      · exact absurd hlen (by simp)
      · exact absurd hlen (by simp)
      · exact ⟨a, b, c, d, e, f, rest, rfl⟩
    have h5 : numericRecords l ≠ [] ∧ 5 ≤ (numericRecords l).length := by
      rw [hrec]
      refine ⟨by simp, ?_⟩
      simp only [List.length_cons]
      omega
    simp [versionStep, modelRule, uptimeRule5, hM, hU, h5, hrec]

/-- Witness for C2's amended claim: a concrete five-token uptime line. -/
theorem uptime_amended_witness :
    versionStep vsInit "AP uptime is 1 2 3 4 5" =
      some { vsInit with
        weeks := 1, days := 2, hours := 3, minutes := 4, seconds := 5,
        uptime := PyVal.num (toSeconds vsInit.years 1 2 3 4 5) } :=
  uptime_amended.2.1 vsInit "AP uptime is 1 2 3 4 5" 1 2 3 4 5
    (by decide) (by decide) (by decide)

/-- C3 amended: in the summary scan, hostname keeps the value of the first
matching line whose extracted value is non-empty (a match extracting an
empty hostname leaves the field unset, so a later Name line can still set
it); fqdn and serialNumber are overwritten by every later matching line, so
for them the last matching line wins; and fqdn is only derived once a
hostname has been set. -/
theorem first_match_amended :
    (∀ (st st' : SummaryState) (l : String),
      summaryStep st l = some st' → st.hostname ≠ "" → st'.hostname = st.hostname) ∧
    (∀ (st st' : SummaryState) (l v : String),
      pyIn "Serial Number" l = true → (pySplitChar ':' l).get? 1 = some v →
      summaryStep st l = some st' → st'.serial_number = v) ∧
    (∀ (st st' : SummaryState) (l v : String),
      pyIn "DNSDomain" l = true → pyIn "Name" l = false → st.hostname ≠ "" →
      (pySplitChar ':' l).get? 1 = some v →
      summaryStep st l = some st' → st'.fqdn = st.hostname ++ "." ++ v) ∧
    (∀ (st st' : SummaryState) (l : String),
      pyIn "DNSDomain" l = true → pyIn "Name" l = false → st.hostname = "" →
      summaryStep st l = some st' → st'.fqdn = st.fqdn) ∧
    show_summary_sanitizer "Name:\nName:X" = some ⟨"x", "", ""⟩ := by
  refine ⟨?_, ?_, ?_, ?_, by decide⟩
  · intro st st' l hstep hne
    unfold summaryStep at hstep
    have hn : nameRule st l = some st.hostname := by
      unfold nameRule
      rw [if_neg (by simp [hne])]
    rw [hn] at hstep
    simp only [Option.some_bind] at hstep
    rcases hd : dnsRule st st.hostname l with _ | f <;> rw [hd] at hstep
    · exact absurd hstep (by simp)
    · simp only [Option.some_bind] at hstep
      rcases hs : serialRule st l with _ | sn <;> rw [hs] at hstep
      · exact absurd hstep (by simp)
      · simp only [Option.map_some'] at hstep
        injection hstep with h2
        rw [← h2]
  · intro st st' l v hS hv hstep
    unfold summaryStep at hstep
    rcases hn : nameRule st l with _ | h0 <;> rw [hn] at hstep
    · exact absurd hstep (by simp)
    · simp only [Option.some_bind] at hstep
      rcases hd : dnsRule st h0 l with _ | f0 <;> rw [hd] at hstep
      · exact absurd hstep (by simp)
      · simp only [Option.some_bind] at hstep
        have hs : serialRule st l = some v := by
          unfold serialRule
          rw [if_pos hS, hv]
        rw [hs] at hstep
        simp only [Option.map_some'] at hstep
        injection hstep with h2
        rw [← h2]
  · intro st st' l v hD hN hne hv hstep
    unfold summaryStep at hstep
    have hn : nameRule st l = some st.hostname := by
      unfold nameRule
      rw [if_neg (by simp [hN])]
    rw [hn] at hstep
    simp only [Option.some_bind] at hstep
    have hd : dnsRule st st.hostname l = some (st.hostname ++ "." ++ v) := by
      unfold dnsRule
      rw [if_pos ⟨hD, hne⟩, hv]
      rfl
    rw [hd] at hstep
    simp only [Option.some_bind] at hstep
    rcases hs : serialRule st l with _ | sn <;> rw [hs] at hstep
    · exact absurd hstep (by simp)
    · simp only [Option.map_some'] at hstep
      injection hstep with h2
      rw [← h2]
  · intro st st' l hD hN hemp hstep
    unfold summaryStep at hstep
    have hn : nameRule st l = some st.hostname := by
      unfold nameRule
      rw [if_neg (by simp [hN])]
    rw [hn] at hstep
    simp only [Option.some_bind] at hstep
    have hd : dnsRule st st.hostname l = some st.fqdn := by
      unfold dnsRule
      rw [if_neg (by simp [hemp])]
    rw [hd] at hstep
    simp only [Option.some_bind] at hstep
    rcases hs : serialRule st l with _ | sn <;> rw [hs] at hstep
    · exact absurd hstep (by simp)
    · simp only [Option.map_some'] at hstep
      injection hstep with h2
      rw [← h2]

/-- Witness for C3's amended claim: a set hostname survives a later Name
line, and the concrete two-Name-line text extracts the second value. -/
theorem first_match_amended_witness :
    show_summary_sanitizer "Name:\nName:X" = some ⟨"x", "", ""⟩ ∧
    SummaryState.hostname ⟨"h", "", ""⟩ = "h" :=
  ⟨first_match_amended.2.2.2.2,
   first_match_amended.1 ⟨"h", "", ""⟩ ⟨"h", "", ""⟩ "Name:Z" (by decide) (by decide)⟩

/-- C9 amended: the neighbor extraction produces exactly one record keyed
by the fixed interface `"eth0"`, with hostname the 3rd whitespace token of
a `"System name:"` line and port the 3rd token of an
`"Interface description:"` line with every comma removed (not only a
trailing one), overwriting on every match so the last matching line wins
for each field. -/
theorem lldp_amended :
    (∀ (result : String) (r : String × List NeighborEntry),
      get_lldp_neighbors result = some r → r.1 = "eth0" ∧ r.2.length = 1) ∧
    (∀ (st : String × String) (line t : String),
      pyIn "System name:" line = true → pyIn "Interface description:" line = false →
      (pySplitWS line).get? 2 = some t →
      lldpStep st line = some (t, st.2)) ∧
    (∀ (st : String × String) (line t : String),
      pyIn "Interface description:" line = true → pyIn "System name:" line = false →
      (pySplitWS line).get? 2 = some t →
      lldpStep st line = some (st.1, pyReplace t "," "")) ∧
    get_lldp_neighbors "System name: a b\nSystem name: c d" =
      some ("eth0", [⟨"c", ""⟩]) := by
  refine ⟨?_, ?_, ?_, by decide⟩
  · intro result r hres
    unfold get_lldp_neighbors at hres
    rcases hfold : (((pySplitlines result).map pyStrip).foldlM lldpStep ("", "")) with _ | p <;>
      rw [hfold] at hres
    · exact absurd hres (by simp)
    · simp only [Option.map_some'] at hres
      injection hres with h; rw [← h]
      exact ⟨rfl, rfl⟩
  · intro st line t hS hI ht
    have hne : line ≠ "" := by
      intro h; rw [h] at hS; exact absurd hS (by decide)
    unfold lldpStep
    rw [if_pos hne]
    have h1 : lldpSysRule st line = some t := by
      unfold lldpSysRule
      rw [if_pos hS, ht]
    have h2 : lldpDescRule st line = some st.2 := by
      unfold lldpDescRule
      rw [if_neg (by simp [hI])]
    rw [h1, h2]
    rfl
  · intro st line t hI hS ht
    have hne : line ≠ "" := by
      intro h; rw [h] at hI; exact absurd hI (by decide)
    unfold lldpStep
    rw [if_pos hne]
    have h1 : lldpSysRule st line = some st.1 := by
      unfold lldpSysRule
      rw [if_neg (by simp [hS])]
    have h2 : lldpDescRule st line = some (pyReplace t "," "") := by
      unfold lldpDescRule
      rw [if_pos hI, ht]
      rfl
    rw [h1, h2]
    rfl

/-- Witness for C9's amended claim at a concrete state and line. -/
theorem lldp_amended_witness :
    lldpStep ("x", "y") "System name: sw1 extra" = some ("sw1", "y") :=
  lldp_amended.2.1 ("x", "y") "System name: sw1 extra" "sw1"
    (by decide) (by decide) (by decide)

/-! Well-formedness of a line for each scanner: a matching line must have
enough structure for the indexing the rule performs. -/

/-- A summary line is safe when any of the three trigger substrings comes
with at least two colon-split fields (that is, the line has a colon). -/
def summaryLineOK (l : String) : Bool :=
  !(pyIn "Name" l || pyIn "DNSDomain" l || pyIn "Serial Number" l) ||
    decide (2 ≤ (pySplitChar ':' l).length)

/-- A version line is safe when a `"MODEL"` line splits into exactly two
comma parts and an uptime line has at most five numeric tokens. -/
def versionLineOK (l : String) : Bool :=
  (!(pyIn "MODEL" l) || decide ((pySplitChar ',' l).length = 2)) &&
  (!(pyIn "AP uptime is" l) || decide ((numericRecords l).length ≤ 5))

/-- An LLDP line is safe when it is blank or any trigger comes with at
least three whitespace tokens. -/
def lldpLineOK (line : String) : Bool :=
  (line == "") ||
  ((!(pyIn "System name:" line) || decide (3 ≤ (pySplitWS line).length)) &&
   (!(pyIn "Interface description:" line) || decide (3 ≤ (pySplitWS line).length)))

theorem get1_of_len {xs : List String} (h : 2 ≤ xs.length) : ∃ v, xs.get? 1 = some v := by
  rcases xs with _ | ⟨a, _ | ⟨b, t⟩⟩
  · simp at h
  · simp at h
  · exact ⟨b, rfl⟩

theorem get2_of_len {xs : List String} (h : 3 ≤ xs.length) : ∃ v, xs.get? 2 = some v := by
  rcases xs with _ | ⟨a, _ | ⟨b, _ | ⟨c, t⟩⟩⟩
  · simp at h
  · simp at h
  · simp at h
  · exact ⟨c, rfl⟩

/-- On a safe line with some trigger, the second colon field exists. -/
theorem colonField_of_OK (l : String) (h : summaryLineOK l = true)
    (htrig : pyIn "Name" l = true ∨ pyIn "DNSDomain" l = true ∨
      pyIn "Serial Number" l = true) :
    ∃ v, (pySplitChar ':' l).get? 1 = some v := by
  apply get1_of_len
  unfold summaryLineOK at h
  rcases htrig with h1 | h1 | h1 <;> simp [h1] at h <;> exact h

/-- A safe summary line steps successfully and leaves untriggered fields
unchanged. -/
theorem summaryStep_total (st : SummaryState) (l : String)
    (h : summaryLineOK l = true) :
    ∃ st', summaryStep st l = some st' ∧
      (pyIn "Name" l = false → st'.hostname = st.hostname) ∧
      (pyIn "DNSDomain" l = false → st'.fqdn = st.fqdn) ∧
      (pyIn "Serial Number" l = false → st'.serial_number = st.serial_number) := by
  obtain ⟨vh, he1, hp1⟩ : ∃ v, nameRule st l = some v ∧
      (pyIn "Name" l = false → v = st.hostname) := by
    unfold nameRule
    by_cases hc : pyIn "Name" l = true ∧ st.hostname = ""
    · rw [if_pos hc]
      obtain ⟨v, hv⟩ := colonField_of_OK l h (Or.inl hc.1)
      exact ⟨pyLower v, by rw [hv]; rfl, fun hf => absurd hc.1 (by simp [hf])⟩
    · rw [if_neg hc]
      exact ⟨st.hostname, rfl, fun _ => rfl⟩
  obtain ⟨vf, he2, hp2⟩ : ∃ v, dnsRule st vh l = some v ∧
      (pyIn "DNSDomain" l = false → v = st.fqdn) := by
    unfold dnsRule
    by_cases hc : pyIn "DNSDomain" l = true ∧ vh ≠ ""
    · rw [if_pos hc]
      obtain ⟨v, hv⟩ := colonField_of_OK l h (Or.inr (Or.inl hc.1))
      exact ⟨vh ++ "." ++ v, by rw [hv]; rfl, fun hf => absurd hc.1 (by simp [hf])⟩
    · rw [if_neg hc]
      exact ⟨st.fqdn, rfl, fun _ => rfl⟩
  obtain ⟨vs, he3, hp3⟩ : ∃ v, serialRule st l = some v ∧
      (pyIn "Serial Number" l = false → v = st.serial_number) := by
    unfold serialRule
    by_cases hc : pyIn "Serial Number" l = true
    · rw [if_pos hc]
      obtain ⟨v, hv⟩ := colonField_of_OK l h (Or.inr (Or.inr hc))
      exact ⟨v, hv, fun hf => absurd hc (by simp [hf])⟩
    · rw [if_neg hc]
      exact ⟨st.serial_number, rfl, fun _ => rfl⟩
  refine ⟨⟨vh, vf, vs⟩, ?_, fun hN => hp1 hN, fun hD => hp2 hD, fun hS => hp3 hS⟩
  unfold summaryStep
  rw [he1]
  simp only [Option.some_bind]
  rw [he2]
  simp only [Option.some_bind]
  rw [he3]
  rfl

/-- The summary fold succeeds on safe lines, and fields whose trigger never
occurs keep their initial value. -/
theorem summary_fold_total (ls : List String) (st : SummaryState)
    (hok : ls.all summaryLineOK = true) :
    ∃ st', ls.foldlM summaryStep st = some st' ∧
      (ls.all (fun l => !(pyIn "Name" l)) = true → st'.hostname = st.hostname) ∧
      (ls.all (fun l => !(pyIn "DNSDomain" l)) = true → st'.fqdn = st.fqdn) ∧
      (ls.all (fun l => !(pyIn "Serial Number" l)) = true →
        st'.serial_number = st.serial_number) := by
  induction ls generalizing st with
  | nil => exact ⟨st, by simp, fun _ => rfl, fun _ => rfl, fun _ => rfl⟩
  | cons l ls ih =>
    simp only [List.all_cons, Bool.and_eq_true] at hok
    obtain ⟨st1, hstep, hp1, hp2, hp3⟩ := summaryStep_total st l hok.1
    obtain ⟨st', hfold, hq1, hq2, hq3⟩ := ih st1 hok.2
    refine ⟨st', ?_, ?_, ?_, ?_⟩
    · simp only [List.foldlM_cons, hstep, Option.bind_eq_bind, Option.some_bind]
      exact hfold
    · intro hA
      rw [List.all_cons, Bool.and_eq_true] at hA
      have h1 : pyIn "Name" l = false := by simpa using hA.1
      rw [hq1 hA.2, hp1 h1]
    · intro hA
      rw [List.all_cons, Bool.and_eq_true] at hA
      have h1 : pyIn "DNSDomain" l = false := by simpa using hA.1
      rw [hq2 hA.2, hp2 h1]
    · intro hA
      rw [List.all_cons, Bool.and_eq_true] at hA
      have h1 : pyIn "Serial Number" l = false := by simpa using hA.1
      rw [hq3 hA.2, hp3 h1]

theorem records_eq_five (l : String) (h5 : (numericRecords l).length = 5) :
    ∃ w d hh m s, numericRecords l = [w, d, hh, m, s] := by
  rcases hx : numericRecords l with _ | ⟨a, _ | ⟨b, _ | ⟨c, _ | ⟨d, _ | ⟨e, _ | ⟨f, t⟩⟩⟩⟩⟩⟩ <;>
      rw [hx] at h5 <;> simp only [List.length_cons, List.length_nil] at h5 <;>
      first
        | omega
        | exact ⟨a, b, c, d, e, rfl⟩

theorem records_eq_four (l : String) (h4 : (numericRecords l).length = 4) :
    ∃ w d hh m, numericRecords l = [w, d, hh, m] := by
  rcases hx : numericRecords l with _ | ⟨a, _ | ⟨b, _ | ⟨c, _ | ⟨d, _ | ⟨e, t⟩⟩⟩⟩⟩ <;>
      rw [hx] at h4 <;> simp only [List.length_cons, List.length_nil] at h4 <;>
      first
        | omega
        | exact ⟨a, b, c, d, rfl⟩

/-- A safe MODEL rule succeeds, never touches the uptime, and is the
identity when the trigger is absent. -/
theorem modelRule_total (st : VersionState) (l : String)
    (h : (!(pyIn "MODEL" l) || decide ((pySplitChar ',' l).length = 2)) = true) :
    ∃ st1, modelRule st l = some st1 ∧ st1.uptime = st.uptime ∧
      (pyIn "MODEL" l = false → st1 = st) := by
  unfold modelRule
  by_cases hM : pyIn "MODEL" l = true
  · rw [if_pos hM]
    rw [hM] at h
    simp only [Bool.not_true, Bool.false_or, decide_eq_true_eq] at h
    obtain ⟨m, o, hsp⟩ : ∃ m o, pySplitChar ',' l = [m, o] := by
      rcases hx : pySplitChar ',' l with _ | ⟨a, _ | ⟨b, _ | ⟨c, t⟩⟩⟩ <;>
        rw [hx] at h <;> simp only [List.length_cons, List.length_nil] at h <;>
        first
          | omega
          | exact ⟨a, b, rfl⟩
    rw [hsp]
    exact ⟨_, rfl, rfl, fun hf => absurd hM (by simp [hf])⟩
  · rw [if_neg hM]
    exact ⟨st, rfl, rfl, fun _ => rfl⟩

/-- With at most five numeric tokens the five-token rule succeeds and keeps
model and os version. -/
theorem uptimeRule5_total (st : VersionState) (l : String)
    (hlen : (numericRecords l).length ≤ 5) :
    ∃ st2, uptimeRule5 st l = some st2 ∧ st2.model = st.model ∧
      st2.os_version = st.os_version := by
  unfold uptimeRule5
  by_cases hc : numericRecords l ≠ [] ∧ 5 ≤ (numericRecords l).length
  · rw [if_pos hc]
    obtain ⟨w, d, hh, m, s, hrec⟩ := records_eq_five l (le_antisymm hlen hc.2)
    rw [hrec]
    exact ⟨_, rfl, rfl, rfl⟩
  · rw [if_neg hc]
    exact ⟨st, rfl, rfl, rfl⟩

/-- The four-token rule always succeeds and keeps model and os version. -/
theorem uptimeRule4_total (st : VersionState) (l : String) :
    ∃ st2, uptimeRule4 st l = some st2 ∧ st2.model = st.model ∧
      st2.os_version = st.os_version := by
  unfold uptimeRule4
  by_cases hc : numericRecords l ≠ [] ∧ (numericRecords l).length = 4
  · rw [if_pos hc]
    obtain ⟨w, d, hh, m, hrec⟩ := records_eq_four l hc.2
    rw [hrec]
    exact ⟨_, rfl, rfl, rfl⟩
  · rw [if_neg hc]
    exact ⟨st, rfl, rfl, rfl⟩

/-- A safe version line steps successfully and leaves untriggered fields
unchanged. -/
theorem versionStep_total (st : VersionState) (l : String)
    (h : versionLineOK l = true) :
    ∃ st', versionStep st l = some st' ∧
      (pyIn "MODEL" l = false → st'.model = st.model ∧ st'.os_version = st.os_version) ∧
      (pyIn "AP uptime is" l = false → st'.uptime = st.uptime) := by
  unfold versionLineOK at h
  rw [Bool.and_eq_true] at h
  obtain ⟨st1, he1, hu1, hid1⟩ := modelRule_total st l h.1
  unfold versionStep
  rw [he1]
  simp only [Option.some_bind]
  by_cases hU : pyIn "AP uptime is" l = true
  · rw [if_pos hU]
    have hlen : (numericRecords l).length ≤ 5 := by
      have h2 := h.2
      rw [hU] at h2
      simp only [Bool.not_true, Bool.false_or, decide_eq_true_eq] at h2
      exact h2
    obtain ⟨st2, he2, hm2, ho2⟩ := uptimeRule5_total st1 l hlen
    obtain ⟨st3, he3, hm3, ho3⟩ := uptimeRule4_total st2 l
    rw [he2]
    simp only [Option.some_bind]
    refine ⟨st3, he3, fun hM => ⟨?_, ?_⟩, fun hUf => absurd hU (by simp [hUf])⟩
    · rw [hm3, hm2, hid1 hM]
    · rw [ho3, ho2, hid1 hM]
  · rw [if_neg hU]
    refine ⟨st1, rfl, fun hM => ?_, fun _ => hu1⟩
    rw [hid1 hM]
    exact ⟨rfl, rfl⟩

/-- The version fold succeeds on safe lines, and fields whose trigger never
occurs keep their initial value. -/
theorem version_fold_total (ls : List String) (st : VersionState)
    (hok : ls.all versionLineOK = true) :
    ∃ st', ls.foldlM versionStep st = some st' ∧
      (ls.all (fun l => !(pyIn "MODEL" l)) = true →
        st'.model = st.model ∧ st'.os_version = st.os_version) ∧
      (ls.all (fun l => !(pyIn "AP uptime is" l)) = true → st'.uptime = st.uptime) := by
  induction ls generalizing st with
  | nil => exact ⟨st, by simp, fun _ => ⟨rfl, rfl⟩, fun _ => rfl⟩
  | cons l ls ih =>
    simp only [List.all_cons, Bool.and_eq_true] at hok
    obtain ⟨st1, hstep, hp1, hp2⟩ := versionStep_total st l hok.1
    obtain ⟨st', hfold, hq1, hq2⟩ := ih st1 hok.2
    refine ⟨st', ?_, ?_, ?_⟩
    · simp only [List.foldlM_cons, hstep, Option.bind_eq_bind, Option.some_bind]
      exact hfold
    · intro hA
      rw [List.all_cons, Bool.and_eq_true] at hA
      have h1 : pyIn "MODEL" l = false := by simpa using hA.1
      obtain ⟨ha, hb⟩ := hq1 hA.2
      obtain ⟨hc, hd⟩ := hp1 h1
      exact ⟨ha.trans hc, hb.trans hd⟩
    · intro hA
      rw [List.all_cons, Bool.and_eq_true] at hA
      have h1 : pyIn "AP uptime is" l = false := by simpa using hA.1
      rw [hq2 hA.2, hp2 h1]

/-- A safe LLDP line steps successfully and leaves untriggered fields
unchanged. -/
theorem lldpStep_total (st : String × String) (line : String)
    (h : lldpLineOK line = true) :
    ∃ st', lldpStep st line = some st' ∧
      (pyIn "System name:" line = false → st'.1 = st.1) ∧
      (pyIn "Interface description:" line = false → st'.2 = st.2) := by
  by_cases hline : line = ""
  · refine ⟨st, ?_, fun _ => rfl, fun _ => rfl⟩
    unfold lldpStep
    rw [if_neg (by simp [hline])]
  · unfold lldpLineOK at h
    have hbe : (line == "") = false := by simp [hline]
    rw [hbe, Bool.false_or, Bool.and_eq_true] at h
    obtain ⟨v1, he1, hp1⟩ : ∃ v, lldpSysRule st line = some v ∧
        (pyIn "System name:" line = false → v = st.1) := by
      unfold lldpSysRule
      by_cases hS : pyIn "System name:" line = true
      · rw [if_pos hS]
        have h3 : 3 ≤ (pySplitWS line).length := by
          have h1 := h.1
          rw [hS] at h1
          simpa using h1
        obtain ⟨v, hv⟩ := get2_of_len h3
        exact ⟨v, hv, fun hf => absurd hS (by simp [hf])⟩
      · rw [if_neg hS]
        exact ⟨st.1, rfl, fun _ => rfl⟩
    obtain ⟨v2, he2, hp2⟩ : ∃ v, lldpDescRule st line = some v ∧
        (pyIn "Interface description:" line = false → v = st.2) := by
      unfold lldpDescRule
      by_cases hI : pyIn "Interface description:" line = true
      · rw [if_pos hI]
        have h3 : 3 ≤ (pySplitWS line).length := by
          have h2 := h.2
          rw [hI] at h2
          simpa using h2
        obtain ⟨v, hv⟩ := get2_of_len h3
        exact ⟨pyReplace v "," "", by rw [hv]; rfl, fun hf => absurd hI (by simp [hf])⟩
      · rw [if_neg hI]
        exact ⟨st.2, rfl, fun _ => rfl⟩
    refine ⟨(v1, v2), ?_, fun hS => hp1 hS, fun hI => hp2 hI⟩
    unfold lldpStep
    rw [if_pos hline, he1]
    simp only [Option.some_bind]
    rw [he2]
    rfl

/-- The LLDP fold succeeds on safe lines, and fields whose trigger never
occurs keep their initial value. -/
theorem lldp_fold_total (ls : List String) (st : String × String)
    (hok : ls.all lldpLineOK = true) :
    ∃ p, ls.foldlM lldpStep st = some p ∧
      (ls.all (fun l => !(pyIn "System name:" l)) = true → p.1 = st.1) ∧
      (ls.all (fun l => !(pyIn "Interface description:" l)) = true → p.2 = st.2) := by
  induction ls generalizing st with
  | nil => exact ⟨st, by simp, fun _ => rfl, fun _ => rfl⟩
  | cons l ls ih =>
    simp only [List.all_cons, Bool.and_eq_true] at hok
    obtain ⟨st1, hstep, hp1, hp2⟩ := lldpStep_total st l hok.1
    obtain ⟨p, hfold, hq1, hq2⟩ := ih st1 hok.2
    refine ⟨p, ?_, ?_, ?_⟩
    · simp only [List.foldlM_cons, hstep, Option.bind_eq_bind, Option.some_bind]
      exact hfold
    · intro hA
      rw [List.all_cons, Bool.and_eq_true] at hA
      have h1 : pyIn "System name:" l = false := by simpa using hA.1
      rw [hq1 hA.2, hp1 h1]
    · intro hA
      rw [List.all_cons, Bool.and_eq_true] at hA
      have h1 : pyIn "Interface description:" l = false := by simpa using hA.1
      rw [hq2 hA.2, hp2 h1]

/-- C1 amended: each extractor terminates and returns its default values
for any field whose source line is absent, but is not exception-free: a
malformed matching line (such as a line containing `"Name"` but no colon, a
`"MODEL"` line without exactly one comma, an uptime line with six or more
numeric tokens, or a trigger line with fewer than three whitespace tokens
in the neighbor scan) raises.  On texts whose matching lines are
well-formed, every extractor returns normally with defaults for absent
fields. -/
theorem extractor_amended :
    ∀ sTxt vTxt nTxt : String,
      (linesOf sTxt).all summaryLineOK = true →
      (linesOf vTxt).all versionLineOK = true →
      ((pySplitlines nTxt).map pyStrip).all lldpLineOK = true →
      (∃ st : SummaryState, show_summary_sanitizer sTxt = some st ∧
        ((linesOf sTxt).all (fun l => !(pyIn "Name" l)) = true → st.hostname = "") ∧
        ((linesOf sTxt).all (fun l => !(pyIn "DNSDomain" l)) = true → st.fqdn = "") ∧
        ((linesOf sTxt).all (fun l => !(pyIn "Serial Number" l)) = true →
          st.serial_number = "")) ∧
      (∃ model osv u, show_version_sanitizer vTxt = some ("Hewlett Packard", model, osv, u) ∧
        ((linesOf vTxt).all (fun l => !(pyIn "MODEL" l)) = true → model = "" ∧ osv = "") ∧
        ((linesOf vTxt).all (fun l => !(pyIn "AP uptime is" l)) = true →
          u = PyVal.str "")) ∧
      (∃ nb : NeighborEntry, get_lldp_neighbors nTxt = some ("eth0", [nb]) ∧
        (((pySplitlines nTxt).map pyStrip).all (fun l => !(pyIn "System name:" l)) = true →
          nb.hostname = "") ∧
        (((pySplitlines nTxt).map pyStrip).all
            (fun l => !(pyIn "Interface description:" l)) = true →
          nb.port = "")) := by
  intro sTxt vTxt nTxt hs hv hn
  refine ⟨?_, ?_, ?_⟩
  · by_cases hd : sTxt = ""
    · exact ⟨⟨"", "", ""⟩, by simp [show_summary_sanitizer, hd],
        fun _ => rfl, fun _ => rfl, fun _ => rfl⟩
    · obtain ⟨st, hfold, hp1, hp2, hp3⟩ := summary_fold_total (linesOf sTxt) ⟨"", "", ""⟩ hs
      exact ⟨st, by simp [show_summary_sanitizer, hd, hfold], hp1, hp2, hp3⟩
  · by_cases hd : vTxt = ""
    · exact ⟨"", "", PyVal.str "", by simp [show_version_sanitizer, hd],
        fun _ => ⟨rfl, rfl⟩, fun _ => rfl⟩
    · obtain ⟨st, hfold, hp1, hp2⟩ := version_fold_total (linesOf vTxt) vsInit hv
      exact ⟨st.model, st.os_version, st.uptime,
        by simp [show_version_sanitizer, hd, hfold], hp1, hp2⟩
  · obtain ⟨p, hfold, hp1, hp2⟩ := lldp_fold_total ((pySplitlines nTxt).map pyStrip) ("", "") hn
    exact ⟨⟨p.1, p.2⟩, by simp [get_lldp_neighbors, hfold], hp1, hp2⟩

/-- Witness for C1's amended claim at concrete trigger-free texts. -/
theorem extractor_amended_witness :
    (∃ st : SummaryState, show_summary_sanitizer "hello" = some st ∧
      ((linesOf "hello").all (fun l => !(pyIn "Name" l)) = true → st.hostname = "") ∧
      ((linesOf "hello").all (fun l => !(pyIn "DNSDomain" l)) = true → st.fqdn = "") ∧
      ((linesOf "hello").all (fun l => !(pyIn "Serial Number" l)) = true →
        st.serial_number = "")) ∧
    (∃ model osv u, show_version_sanitizer "hello" = some ("Hewlett Packard", model, osv, u) ∧
      ((linesOf "hello").all (fun l => !(pyIn "MODEL" l)) = true → model = "" ∧ osv = "") ∧
      ((linesOf "hello").all (fun l => !(pyIn "AP uptime is" l)) = true →
        u = PyVal.str "")) ∧
    (∃ nb : NeighborEntry, get_lldp_neighbors "hello" = some ("eth0", [nb]) ∧
      (((pySplitlines "hello").map pyStrip).all (fun l => !(pyIn "System name:" l)) = true →
        nb.hostname = "") ∧
      (((pySplitlines "hello").map pyStrip).all
          (fun l => !(pyIn "Interface description:" l)) = true →
        nb.port = "")) :=
  extractor_amended "hello" "hello" "hello" (by decide) (by decide) (by decide)

/-- C6 amended: for every summary text whose lines are a Name line, then a
DNSDomain line, then a Serial Number line — where each extracted value is
the second colon-split field of its line (the text between the first and
second colon; for a line with a single colon, the text after it), the
hostname extraction is non-empty, and the Serial Number line does not also
contain `"DNSDomain"` — the scan returns hostname equal to the lowercased
second colon field of the Name line, fqdn equal to hostname `++ "." ++` the
second colon field of the DNSDomain line, and serialNumber equal to the
second colon field of the Serial Number line; in particular the text
`"Name:ROUTER1"`, `"DNSDomain:example.com"`, `"Serial Number:SN123"`
yields `("router1", "router1.example.com", "SN123")`. -/
theorem summary_extraction_amended :
    ∀ (text l1 l2 l3 n dom sn : String),
      pySplitlines (pyStrip text) = [l1, l2, l3] →
      pyIn "Name" l1 = true → (pySplitChar ':' l1).get? 1 = some n →
      pyLower n ≠ "" →
      pyIn "DNSDomain" l2 = true → (pySplitChar ':' l2).get? 1 = some dom →
      pyIn "Serial Number" l3 = true → (pySplitChar ':' l3).get? 1 = some sn →
      pyIn "DNSDomain" l3 = false →
      show_summary_sanitizer text = some ⟨pyLower n, pyLower n ++ "." ++ dom, sn⟩ := by
  intro text l1 l2 l3 n dom sn hlines hN1 hn hne hD2 hdom hS3 hsn hD3
  have htext : text ≠ "" := by
    intro h0
    rw [h0] at hlines
    have hnil : pySplitlines (pyStrip "") = ([] : List String) := rfl
    rw [hnil] at hlines
    exact absurd hlines (by simp)
  -- the first line sets the hostname; its fqdn and serial effects are
  -- overwritten by the later lines
  obtain ⟨f1, s1, hstep1⟩ :
      ∃ f1 s1, summaryStep ⟨"", "", ""⟩ l1 = some ⟨pyLower n, f1, s1⟩ := by
    unfold summaryStep
    have h1 : nameRule ⟨"", "", ""⟩ l1 = some (pyLower n) := by
      unfold nameRule
      rw [if_pos ⟨hN1, rfl⟩, hn]
      rfl
    rw [h1]
    simp only [Option.some_bind]
    by_cases hd1 : pyIn "DNSDomain" l1 = true ∧ pyLower n ≠ ""
    · have h2 : dnsRule ⟨"", "", ""⟩ (pyLower n) l1 = some (pyLower n ++ "." ++ n) := by
        unfold dnsRule
        rw [if_pos hd1, hn]
        rfl
      rw [h2]
      simp only [Option.some_bind]
      by_cases hs1 : pyIn "Serial Number" l1 = true
      · have h3 : serialRule ⟨"", "", ""⟩ l1 = some n := by
          unfold serialRule
          rw [if_pos hs1, hn]
        rw [h3]
        exact ⟨_, _, rfl⟩
      · have h3 : serialRule ⟨"", "", ""⟩ l1 = some "" := by
          unfold serialRule
          rw [if_neg hs1]
        rw [h3]
        exact ⟨_, _, rfl⟩
    · have h2 : dnsRule ⟨"", "", ""⟩ (pyLower n) l1 = some "" := by
        unfold dnsRule
        rw [if_neg hd1]
      rw [h2]
      simp only [Option.some_bind]
      by_cases hs1 : pyIn "Serial Number" l1 = true
      · have h3 : serialRule ⟨"", "", ""⟩ l1 = some n := by
          unfold serialRule
          rw [if_pos hs1, hn]
        rw [h3]
        exact ⟨_, _, rfl⟩
      · have h3 : serialRule ⟨"", "", ""⟩ l1 = some "" := by
          unfold serialRule
          rw [if_neg hs1]
        rw [h3]
        exact ⟨_, _, rfl⟩
  -- the second line sets the fqdn; a serial effect is overwritten later
  obtain ⟨s2, hstep2⟩ : ∃ s2, summaryStep ⟨pyLower n, f1, s1⟩ l2 =
      some ⟨pyLower n, pyLower n ++ "." ++ dom, s2⟩ := by
    unfold summaryStep
    have h1 : nameRule ⟨pyLower n, f1, s1⟩ l2 = some (pyLower n) := by
      unfold nameRule
      rw [if_neg]
      intro hc
      exact hne hc.2
    rw [h1]
    simp only [Option.some_bind]
    have h2 : dnsRule ⟨pyLower n, f1, s1⟩ (pyLower n) l2 =
        some (pyLower n ++ "." ++ dom) := by
      unfold dnsRule
      rw [if_pos ⟨hD2, hne⟩, hdom]
      rfl
    rw [h2]
    simp only [Option.some_bind]
    by_cases hs2 : pyIn "Serial Number" l2 = true
    · have h3 : serialRule ⟨pyLower n, f1, s1⟩ l2 = some dom := by
        unfold serialRule
        rw [if_pos hs2, hdom]
      rw [h3]
      exact ⟨_, rfl⟩
    · have h3 : serialRule ⟨pyLower n, f1, s1⟩ l2 = some s1 := by
        unfold serialRule
        rw [if_neg hs2]
      rw [h3]
      exact ⟨_, rfl⟩
  -- the third line sets the serial number and may not touch the fqdn
  have hstep3 : summaryStep ⟨pyLower n, pyLower n ++ "." ++ dom, s2⟩ l3 =
      some ⟨pyLower n, pyLower n ++ "." ++ dom, sn⟩ := by
    unfold summaryStep
    have h1 : nameRule ⟨pyLower n, pyLower n ++ "." ++ dom, s2⟩ l3 = some (pyLower n) := by
      unfold nameRule
      rw [if_neg]
      intro hc
      exact hne hc.2
    rw [h1]
    simp only [Option.some_bind]
    have h2 : dnsRule ⟨pyLower n, pyLower n ++ "." ++ dom, s2⟩ (pyLower n) l3 =
        some (pyLower n ++ "." ++ dom) := by
      unfold dnsRule
      rw [if_neg]
      intro hc
      exact absurd hc.1 (by simp [hD3])
    rw [h2]
    simp only [Option.some_bind]
    have h3 : serialRule ⟨pyLower n, pyLower n ++ "." ++ dom, s2⟩ l3 = some sn := by
      unfold serialRule
      rw [if_pos hS3, hsn]
    rw [h3]
    rfl
  unfold show_summary_sanitizer
  rw [if_neg htext]
  unfold linesOf
  rw [hlines]
  simp only [List.foldlM_cons, List.foldlM_nil, Option.bind_eq_bind]
  rw [hstep1]
  simp only [Option.some_bind]
  rw [hstep2]
  simp only [Option.some_bind]
  rw [hstep3]
  rfl

/-- Witness for C6's amended claim: the concrete three-line summary text of
the claim. -/
theorem summary_extraction_amended_witness :
    show_summary_sanitizer "Name:ROUTER1\nDNSDomain:example.com\nSerial Number:SN123" =
      some ⟨"router1", "router1.example.com", "SN123"⟩ :=
  summary_extraction_amended
    "Name:ROUTER1\nDNSDomain:example.com\nSerial Number:SN123"
    "Name:ROUTER1" "DNSDomain:example.com" "Serial Number:SN123"
    "ROUTER1" "example.com" "SN123"
    (by decide) (by decide) (by decide) (by decide) (by decide) (by decide)
    (by decide) (by decide) (by decide)

end ArubaF
